import Mathlib

/-!
Shallow embedding of the request-admission pipeline of the `api-gateway`
repository: the rate-limiting engine (`src/backend/services/RateLimiterService.ts`),
the rate-limiter middleware (`src/backend/middleware/rateLimiter.ts`),
the request logger and analytics buffer (`src/backend/middleware/requestLogger.ts`),
the API-key authentication middleware (`src/backend/middleware/apiKeyAuth.ts`)
and the TOTP key format helpers (`src/backend/utils/totp.ts`).

JavaScript numbers are modelled as `Option ℚ`, where `none` plays the role
of `NaN`: arithmetic on `undefined`/`NaN` propagates `NaN`, and every
ordering comparison against `NaN` is `false`.  TypeScript optional fields
(`maxRequests?`, `windowMs?`, `refillRate?`) are `none` when absent, which
is exactly what the non-null assertions (`tierConfig.maxRequests!`) forward
into the algorithms at runtime.  Strings appearing inside parsed API keys
are modelled as `List Char`; map-valued instance fields (`Map<string, _>`)
are modelled as functions `String → Option _`, and each method that mutates
state returns the updated state explicitly.
-/

namespace Gateway

/-- JavaScript number: `none` stands for `NaN` (or an `undefined` operand
coerced to `NaN`). -/
abbrev JNum : Type := Option ℚ

/-- Embed a real (non-`NaN`) number. -/
def jn (q : ℚ) : JNum := some q

/-- JS `a + b`. -/
def jadd : JNum → JNum → JNum
  | some a, some b => some (a + b)
  | _, _ => none

/-- JS `a - b`. -/
def jsub : JNum → JNum → JNum
  | some a, some b => some (a - b)
  | _, _ => none

/-- JS `a * b`. -/
def jmul : JNum → JNum → JNum
  | some a, some b => some (a * b)
  | _, _ => none

/-- JS `a / b`.  Division by zero yields `±Infinity` in JS; no call site in
the embedded code divides by zero (`checkLimit` coerces a zero or missing
`refillRate` to 1 before dispatch), so that case is mapped to `none`. -/
def jdiv : JNum → JNum → JNum
  | some a, some b => if b = 0 then none else some (a / b)
  | _, _ => none

/-- JS `Math.min`: `NaN` absorbs. -/
def jmin : JNum → JNum → JNum
  | some a, some b => some (min a b)
  | _, _ => none

/-- JS `Math.max`: `NaN` absorbs. -/
def jmax : JNum → JNum → JNum
  | some a, some b => some (max a b)
  | _, _ => none

/-- JS `Math.floor` (`NaN` maps to `NaN`). -/
def jfloor : JNum → JNum
  | some a => some (⌊a⌋ : ℤ)
  | none => none

/-- JS `Math.ceil` (`NaN` maps to `NaN`). -/
def jceil : JNum → JNum
  | some a => some (⌈a⌉ : ℤ)
  | none => none

/-- JS `a >= b`: any comparison with `NaN` is false. -/
def jge : JNum → JNum → Bool
  | some a, some b => decide (b ≤ a)
  | _, _ => false

/-- JS `a <= b`: any comparison with `NaN` is false. -/
def jle : JNum → JNum → Bool
  | some a, some b => decide (a ≤ b)
  | _, _ => false

/-- JS `a < b`: any comparison with `NaN` is false. -/
def jlt : JNum → JNum → Bool
  | some a, some b => decide (a < b)
  | _, _ => false

/-- JS `a > b`: any comparison with `NaN` is false. -/
def jgt : JNum → JNum → Bool
  | some a, some b => decide (b < a)
  | _, _ => false

/-- JS `x || d` for a numeric `x` and real default `d`: `undefined`, `NaN`
and `0` are falsy. -/
def jorDefault (x : JNum) (d : ℚ) : JNum :=
  match x with
  | some a => if a = 0 then some d else some a
  | none => some d

/-- Finite string-keyed map (`Map<string, α>` instance field). -/
def SMap (α : Type) : Type := String → Option α

/-- Embeds `Map.prototype.set`. -/
def SMap.set (m : SMap α) (k : String) (v : α) : SMap α :=
  fun k' => if k' = k then some v else m k'

/-- Embeds `new Map()`. -/
def SMap.empty : SMap α := fun _ => none

/-! ### `RateLimiterService.ts` -/
/-- Embeds `BucketState` (`src/types/index.ts`): `tokens` is a JS number that can
become `NaN` when a malformed config is forwarded; `lastRefill` is always a
clock reading. -/
structure BucketState where
  tokens : JNum
  lastRefill : ℚ
deriving DecidableEq

/-- Embeds `SlidingWindowState`: the stored timestamps are always actual clock
readings (`now` values that were pushed). -/
structure SlidingWindowState where
  timestamps : List ℚ
deriving DecidableEq

/-- Embeds `FixedWindowState`. -/
structure FixedWindowState where
  count : ℕ
  windowStart : ℚ
deriving DecidableEq

/-- Result shape `{ allowed, remaining, resetMs }` returned by the three
algorithms' `tryConsume`. -/
structure ConsumeResult where
  allowed : Bool
  remaining : JNum
  resetMs : JNum
deriving DecidableEq

/-- The refill expression of `TokenBucket.tryConsume` (line 16):
`Math.min(maxTokens, bucket.tokens + elapsed * refillRate)`. -/
def TokenBucket.refill (maxTokens tokens : JNum) (elapsed : ℚ) (refillRate : JNum) : JNum :=
  jmin maxTokens (jadd tokens (jmul (jn elapsed) refillRate))

/-- Embeds `TokenBucket.tryConsume(ip, maxTokens, refillRate)` with the call-time
clock reading `now` (`Date.now()`) made explicit.  Returns the result and
the updated bucket map (the bucket object stored in the map is mutated in
place in the source, so the stored state always reflects the refill and the
consumption). -/
def TokenBucket.tryConsume (now : ℚ) (buckets : SMap BucketState) (ip : String)
    (maxTokens refillRate : JNum) : ConsumeResult × SMap BucketState :=
  let bucket : BucketState :=
    match buckets ip with
    | some b => b
    | none => { tokens := maxTokens, lastRefill := now }
  let elapsed : ℚ := (now - bucket.lastRefill) / 1000
  let tokens1 : JNum := TokenBucket.refill maxTokens bucket.tokens elapsed refillRate
  if jge tokens1 (jn 1) then
    let tokens2 : JNum := jsub tokens1 (jn 1)
    let resetMs : JNum :=
      if jle tokens2 (jn 0) then jceil (jmul (jdiv (jn 1) refillRate) (jn 1000)) else jn 0
    (⟨true, jfloor tokens2, resetMs⟩,
      buckets.set ip { tokens := tokens2, lastRefill := now })
  else
    let resetMs : JNum := jceil (jmul (jdiv (jsub (jn 1) tokens1) refillRate) (jn 1000))
    (⟨false, jn 0, resetMs⟩,
      buckets.set ip { tokens := tokens1, lastRefill := now })

/-- Embeds `state.timestamps[0]`: `undefined` (hence `NaN` under arithmetic) on an
empty array. -/
def jhead : List ℚ → JNum
  | [] => none
  | t :: _ => some t

/-- Embeds `SlidingWindowLog.tryConsume(ip, maxRequests, windowMs)` with the clock
reading explicit. -/
def SlidingWindowLog.tryConsume (now : ℚ) (windows : SMap SlidingWindowState) (ip : String)
    (maxRequests windowMs : JNum) : ConsumeResult × SMap SlidingWindowState :=
  let state : SlidingWindowState :=
    match windows ip with
    | some s => s
    | none => { timestamps := [] }
  let ts : List ℚ := state.timestamps.filter (fun t => jlt (jn (now - t)) windowMs)
  if jlt (jn (ts.length : ℚ)) maxRequests then
    let ts' := ts ++ [now]
    (⟨true, jsub maxRequests (jn (ts'.length : ℚ)),
        if 0 < ts'.length then jsub windowMs (jsub (jn now) (jhead ts')) else windowMs⟩,
      windows.set ip { timestamps := ts' })
  else
    (⟨false, jn 0, jsub windowMs (jsub (jn now) (jhead ts))⟩,
      windows.set ip { timestamps := ts })

/-- Embeds `FixedWindowCounter.tryConsume(ip, maxRequests, windowMs)` with the
clock reading explicit. -/
def FixedWindowCounter.tryConsume (now : ℚ) (windows : SMap FixedWindowState) (ip : String)
    (maxRequests windowMs : JNum) : ConsumeResult × SMap FixedWindowState :=
  let state : FixedWindowState :=
    match windows ip with
    | some s => if jge (jn (now - s.windowStart)) windowMs then { count := 0, windowStart := now } else s
    | none => { count := 0, windowStart := now }
  let resetMs : JNum := jsub windowMs (jn (now - state.windowStart))
  if jlt (jn (state.count : ℚ)) maxRequests then
    (⟨true, jsub maxRequests (jn ((state.count + 1 : ℕ) : ℚ)), resetMs⟩,
      windows.set ip { state with count := state.count + 1 })
  else
    (⟨false, jn 0, resetMs⟩, windows.set ip state)

/-- Embeds `TierConfig` (`src/types/index.ts`): the algorithm union plus three
optional numeric parameters (`none` = field absent). -/
inductive Algorithm where
  | tokenBucket
  | slidingWindow
  | fixedWindow
  | noLimit
deriving DecidableEq

structure TierConfig where
  algorithm : Algorithm
  maxRequests : JNum
  windowMs : JNum
  refillRate : JNum
deriving DecidableEq

/-- Embeds `RateLimitConfig`. -/
structure RateLimitConfig where
  tiers : SMap TierConfig
  defaultTier : String
  globalMaxRequests : ℚ
  globalWindowMs : ℚ

/-- The four state maps plus the `_rateLimitHits` counter owned by
`RateLimiterService`. -/
structure ServiceState where
  tokenBucket : SMap BucketState
  slidingWindow : SMap SlidingWindowState
  fixedWindow : SMap FixedWindowState
  globalWindow : SMap FixedWindowState
  rateLimitHits : ℕ

/-- Freshly constructed `RateLimiterService` state. -/
def ServiceState.init : ServiceState :=
  ⟨SMap.empty, SMap.empty, SMap.empty, SMap.empty, 0⟩

/-- Result shape of `checkLimit`. -/
structure CheckResult where
  allowed : Bool
  remaining : JNum
  resetMs : JNum
  limit : JNum
deriving DecidableEq

/-- Embeds `this.config.tiers[tier] || this.config.tiers[this.config.defaultTier]`
(a present config object is always truthy). -/
def resolveTier (cfg : RateLimitConfig) (tier : String) : Option TierConfig :=
  match cfg.tiers tier with
  | some c => some c
  | none => cfg.tiers cfg.defaultTier

/-- Embeds `RateLimiterService.checkLimit(ip, tier)` with the clock reading
explicit; returns the result together with the updated service state. -/
def checkLimit (cfg : RateLimitConfig) (now : ℚ) (s : ServiceState) (ip tier : String) :
    CheckResult × ServiceState :=
  let g := FixedWindowCounter.tryConsume now s.globalWindow "__global__"
    (jn cfg.globalMaxRequests) (jn cfg.globalWindowMs)
  if g.1.allowed = false then
    (⟨false, jn 0, g.1.resetMs, jn cfg.globalMaxRequests⟩,
      { s with
        globalWindow := g.2
        rateLimitHits := s.rateLimitHits + 1 })
  else
    let s1 : ServiceState := { s with globalWindow := g.2 }
    match resolveTier cfg tier with
    | none => (⟨true, jn (-1), jn 0, jn (-1)⟩, s1)
    | some tc =>
      match tc.algorithm with
      | Algorithm.noLimit => (⟨true, jn (-1), jn 0, jn (-1)⟩, s1)
      | Algorithm.tokenBucket =>
        let r := TokenBucket.tryConsume now s1.tokenBucket ip tc.maxRequests
          (jorDefault tc.refillRate 1)
        (⟨r.1.allowed, r.1.remaining, r.1.resetMs, tc.maxRequests⟩,
          { s1 with
            tokenBucket := r.2
            rateLimitHits := if r.1.allowed then s1.rateLimitHits else s1.rateLimitHits + 1 })
      | Algorithm.slidingWindow =>
        let r := SlidingWindowLog.tryConsume now s1.slidingWindow ip tc.maxRequests tc.windowMs
        (⟨r.1.allowed, r.1.remaining, r.1.resetMs, tc.maxRequests⟩,
          { s1 with
            slidingWindow := r.2
            rateLimitHits := if r.1.allowed then s1.rateLimitHits else s1.rateLimitHits + 1 })
      | Algorithm.fixedWindow =>
        let r := FixedWindowCounter.tryConsume now s1.fixedWindow ip tc.maxRequests tc.windowMs
        (⟨r.1.allowed, r.1.remaining, r.1.resetMs, tc.maxRequests⟩,
          { s1 with
            fixedWindow := r.2
            rateLimitHits := if r.1.allowed then s1.rateLimitHits else s1.rateLimitHits + 1 })

/-- A sequence of `checkLimit` calls from one client at the given clock
readings; returns the final service state and the per-call results in call
order. -/
def runChecks (cfg : RateLimitConfig) (ip tier : String) :
    List ℚ → ServiceState → ServiceState × List CheckResult
  | [], s => (s, [])
  | t :: ts, s =>
    let r := checkLimit cfg t s ip tier
    let rest := runChecks cfg ip tier ts r.2
    (rest.1, r.1 :: rest.2)

/-- The clock readings of the calls in `runChecks` that were admitted
(`allowed = true`). -/
def admittedTimes (cfg : RateLimitConfig) (ip tier : String) (ts : List ℚ) (s : ServiceState) :
    List ℚ :=
  ((ts.zip (runChecks cfg ip tier ts s).2).filter (fun p => p.2.allowed)).map (fun p => p.1)

/-! ### `middleware/rateLimiter.ts` -/
/-- The three `X-RateLimit-*` header values, in the order they are set:
`Limit`, `Remaining`, `Reset`. -/
structure RateHeaders where
  limit : JNum
  remaining : JNum
  reset : JNum
deriving DecidableEq

/-- What the rate-limiter middleware does with the response: call `next()`
or terminate with `429 {error: "Rate limit exceeded", retryAfter}`. -/
inductive LimiterResponse where
  | next
  | tooManyRequests (retryAfter : JNum)
deriving DecidableEq

/-- The response-shaping of the inner function of `createRateLimiter`, as a
function of the `checkLimit` result: which headers are set (if any) and how
the request is answered. -/
def rateLimiterRespond (result : CheckResult) : Option RateHeaders × LimiterResponse :=
  let headers : Option RateHeaders :=
    if jgt result.limit (jn 0) then
      some ⟨result.limit, jmax (jn 0) result.remaining, jceil (jdiv result.resetMs (jn 1000))⟩
    else none
  if result.allowed = false then
    (headers, LimiterResponse.tooManyRequests (jceil (jdiv result.resetMs (jn 1000))))
  else
    (headers, LimiterResponse.next)

/-! ### `middleware/requestLogger.ts` -/
/-- Embeds `RequestLog` (`src/types/index.ts`): the authoritative analytics record
schema. -/
structure RequestLog where
  timestamp : ℚ
  method : String
  path : String
  statusCode : ℕ
  responseTime : ℚ
  clientId : String
  ip : String
  apiKey : Option String
  authenticated : Bool
deriving DecidableEq

/-- The field names of the `RequestLog` interface in `src/types/index.ts`
(lines 50-60). -/
def requestLogSchemaFields : List String :=
  ["timestamp", "method", "path", "statusCode", "responseTime", "clientId", "ip",
    "apiKey", "authenticated"]

/-- The keys of the object literal that `createRequestLogger` passes to
`analytics.addLog` on response `finish`
(`src/backend/middleware/requestLogger.ts` lines 10-19). -/
def loggerEmittedFields : List String :=
  ["timestamp", "method", "path", "statusCode", "responseTime", "clientId", "ip", "apiKey"]

/-- Embeds `MAX_LOG_SIZE`. -/
def MAX_LOG_SIZE : ℕ := 10000

/-- The mutable fields of `AnalyticsService`. -/
structure AnalyticsState where
  logs : List RequestLog
  head : ℕ
  count : ℕ
deriving DecidableEq

/-- Embeds `new AnalyticsService()`. -/
def AnalyticsState.init : AnalyticsState := ⟨[], 0, 0⟩

/-- Embeds `AnalyticsService.addLog`. -/
def addLog (s : AnalyticsState) (log : RequestLog) : AnalyticsState :=
  if s.count < MAX_LOG_SIZE then
    { logs := s.logs ++ [log], head := s.head, count := s.count + 1 }
  else
    { logs := s.logs.set s.head log, head := (s.head + 1) % MAX_LOG_SIZE, count := s.count }

/-- The `AnalyticsService` state after a sequence of `addLog` calls,
starting from a fresh service. -/
def applyLogs (rs : List RequestLog) : AnalyticsState :=
  rs.foldl addLog AnalyticsState.init

/-- Embeds `AnalyticsService.getOrderedLogs` (newest-first view). -/
def getOrderedLogs (s : AnalyticsState) : List RequestLog :=
  if s.count < MAX_LOG_SIZE then
    s.logs.reverse
  else
    (s.logs.drop s.head ++ s.logs.take s.head).reverse

/-- Embeds `AnalyticsService.getRecentLogs(limit, offset)` =
`getOrderedLogs().slice(offset, offset + limit)`. -/
def getRecentLogs (limit offset : ℕ) (s : AnalyticsState) : List RequestLog :=
  ((getOrderedLogs s).drop offset).take ((offset + limit) - offset)

/-- The `totalRequests` field of `AnalyticsService.getAnalytics`
(`totalRequests: this.count`). -/
def analyticsTotalRequests (s : AnalyticsState) : ℕ := s.count

/-! ### `utils/totp.ts` — key formatting and parsing.

API-key strings are modelled as `List Char`; JS `String.prototype.split`
on a single-character separator is `splitOnSep`. -/
/-- JS `s.split(sep)` for a one-character separator: always returns at
least one (possibly empty) part. -/
def splitOnSep (sep : Char) : List Char → List (List Char)
  | [] => [[]]
  | c :: rest =>
    let r := splitOnSep sep rest
    if c = sep then [] :: r
    else
      match r with
      | [] => [[c]]
      | h :: t => (c :: h) :: t

/-- JS `parts.join(sep)` for the parts of a split. -/
def joinSep (sep : Char) : List (List Char) → List Char
  | [] => []
  | [p] => p
  | p :: ps => p ++ sep :: joinSep sep ps

/-- Embeds `formatKey(browserId, code) = "totp_" + browserId + "_" + code`. -/
def formatKey (browserId code : List Char) : List Char :=
  "totp_".toList ++ browserId ++ '_' :: code

/-- Embeds `parseKey` (`src/backend/utils/totp.ts` lines 30-41): strip the
`totp_` prefix, split the rest on `_`, take the last segment as the code
and re-join the others as the `browserId`; reject when the prefix is
missing, fewer than two segments result, or either part is empty. -/
def parseKey (key : List Char) : Option (List Char × List Char) :=
  if "totp_".toList.isPrefixOf key then
    let parts := splitOnSep '_' (key.drop 5)
    if parts.length < 2 then none
    else
      let code := parts.getLast?.getD []
      let browserId := joinSep '_' (parts.take (parts.length - 1))
      if browserId = [] ∨ code = [] then none
      else some (browserId, code)
  else none

/-- Lowercase hexadecimal digit. -/
def isHexLower (c : Char) : Bool :=
  (('0' ≤ c && c ≤ '9') || ('a' ≤ c && c ≤ 'f'))

/-- Canonical lowercase hyphenated UUIDv4 shape `8-4-4-4-12`: 36
characters, hyphens exactly at positions 8, 13, 18 and 23, lowercase hex
digits elsewhere. -/
def isCanonicalUuid (s : List Char) : Bool :=
  s.length = 36 &&
  s.all (fun c => isHexLower c || c = '-') &&
  (List.range 36).all (fun i =>
    if i = 8 ∨ i = 13 ∨ i = 18 ∨ i = 23 then s.getD i ' ' = '-'
    else isHexLower (s.getD i ' '))

/-- A 16-character lowercase-hex TOTP code. -/
def isHexCode16 (s : List Char) : Bool :=
  s.length = 16 && s.all isHexLower

/-! ### `middleware/apiKeyAuth.ts`

The observable outcome of the middleware per request.  The device registry is
abstracted by the lookup `getDevice` exposes (`browserId → Option entry`),
the custom validator by `key → Option sessionId`, and the cryptographic
`validateTOTP` by an arbitrary boolean function — the claims about this
middleware concern its control flow, not the HMAC. -/
/-- The fields of a registered device that `apiKeyAuth` reads. -/
structure DeviceLookupEntry where
  sharedSecret : List Char
deriving DecidableEq

/-- One static credential (`ApiKey` in `src/types/index.ts`), with the
fields `apiKeyAuth` reads. -/
structure StaticKey where
  id : String
  key : List Char
  tier : String
  active : Bool
deriving DecidableEq

/-- Outcome of the auth middleware: pass the request on with the
request-scoped identity it set, or terminate with a status and error
body. -/
inductive AuthOutcome where
  | proceed (clientId : String) (tier : String) (apiKeyValue : Option (List Char))
  | reject (status : ℕ) (error : String)
deriving DecidableEq

/-- The static branch of `apiKeyAuth` (lines 71-84):
`config.keys.find(k => k.key === apiKey && k.active)`. -/
def staticKeyLookup (keys : List StaticKey) (apiKey : List Char) : AuthOutcome :=
  match keys.find? (fun k => k.key = apiKey && k.active) with
  | none => AuthOutcome.reject 401 "Invalid or revoked API key"
  | some e => AuthOutcome.proceed e.id e.tier (some e.key)

/-- Embeds `apiKeyAuth` (`src/backend/middleware/apiKeyAuth.ts` lines 11-84) as a
function of the candidate key and the configured collaborators.
`clientIdFromString` renders a parsed `List Char` identity back into the
`String` world of client ids. -/
def clientIdFromString (s : List Char) : String := String.mk s

def apiKeyAuth (keys : List StaticKey)
    (deviceRegistry : Option (List Char → Option DeviceLookupEntry))
    (customTotpValidator : Option (List Char → Option String))
    (validTOTP : List Char → List Char → List Char → Bool)
    (reqIp : Option String)
    (apiKey : Option (List Char)) : AuthOutcome :=
  match apiKey with
  | none => AuthOutcome.proceed (reqIp.getD "unknown") "free" none
  | some key =>
    if "totp_".toList.isPrefixOf key then
      match customTotpValidator with
      | some validator =>
        match validator key with
        | none => AuthOutcome.reject 401 "Invalid or expired TOTP session"
        | some sessionId => AuthOutcome.proceed sessionId "free" (some key)
      | none =>
        match deviceRegistry with
        | some getDevice =>
          match parseKey key with
          | none => AuthOutcome.reject 401 "Malformed TOTP key"
          | some parsed =>
            match getDevice parsed.1 with
            | none => AuthOutcome.reject 401 "Device not registered or expired"
            | some device =>
              if validTOTP parsed.1 device.sharedSecret parsed.2 then
                AuthOutcome.proceed (clientIdFromString parsed.1) "free" (some key)
              else
                AuthOutcome.reject 401 "Invalid or expired TOTP code"
        | none => staticKeyLookup keys key
    else staticKeyLookup keys key

/-! ## Helper lemmas and claim theorems -/
/-- A rate-limit config whose only tier names the `tokenBucket` algorithm
but omits its required `maxRequests` parameter. -/
def brokenTierCfg : RateLimitConfig :=
  { tiers := fun n => if n = "broken" then
      some ⟨Algorithm.tokenBucket, none, none, jn 1⟩ else none
    defaultTier := "broken"
    globalMaxRequests := 100
    globalWindowMs := 60000 }

/-- A config whose global ceiling is zero, so the very first call is
rejected by the global window. -/
def zeroGlobalCfg : RateLimitConfig :=
  { tiers := fun _ => none
    defaultTier := "free"
    globalMaxRequests := 0
    globalWindowMs := 60000 }

/-- The token-bucket drain scenario config: tier `free` is
`{algorithm: tokenBucket, maxRequests: 5, windowMs: 60000, refillRate: 1}`
under a roomy global ceiling. -/
def drainCfg : RateLimitConfig :=
  { tiers := fun n => if n = "free" then
      some ⟨Algorithm.tokenBucket, jn 5, jn 60000, jn 1⟩ else none
    defaultTier := "free"
    globalMaxRequests := 100
    globalWindowMs := 60000 }

/-- A sequence of `TokenBucket.tryConsume` calls for one client; returns
the final bucket map and the per-call `allowed` flags. -/
def runBucket (ip : String) (maxTokens refillRate : JNum) :
    List ℚ → SMap BucketState → SMap BucketState × List Bool
  | [], m => (m, [])
  | t :: ts, m =>
    let r := TokenBucket.tryConsume t m ip maxTokens refillRate
    let rest := runBucket ip maxTokens refillRate ts r.2
    (rest.1, r.1.allowed :: rest.2)

/-- The timestamps the sliding-window map of the service stores for a client
(`[]` when the client has no entry yet). -/
def storedSW (s : ServiceState) (ip : String) : List ℚ :=
  match s.slidingWindow ip with
  | some st => st.timestamps
  | none => []

/-- The timestamps a sliding-window map stores for a client (`[]` when the
client has no entry yet). -/
def storedTimestamps (w : SMap SlidingWindowState) (ip : String) : List ℚ :=
  match w ip with
  | some st => st.timestamps
  | none => []

/-- The sliding-window counterexample config: tier `pro` is
`{algorithm: slidingWindow, maxRequests: 2, windowMs: 1000}` under a roomy
global ceiling. -/
def slidingCfg : RateLimitConfig :=
  { tiers := fun n => if n = "pro" then
      some ⟨Algorithm.slidingWindow, jn 2, jn 1000, none⟩ else none
    defaultTier := "pro"
    globalMaxRequests := 100
    globalWindowMs := 60000 }

/-- Invariant tying the analytics state to the full insert history `rs`:
`count` is `min n 10000`, and the array is either exactly the inserted
records (below capacity, `head = 0`) or a rotation `post ++ pre` whose
chronological reading `pre ++ post` is the last 10000 inserts. -/
def BufInv (rs : List RequestLog) (s : AnalyticsState) : Prop :=
  s.count = min rs.length MAX_LOG_SIZE ∧
  s.logs.length = min rs.length MAX_LOG_SIZE ∧
  ((rs.length < MAX_LOG_SIZE ∧ s.logs = rs ∧ s.head = 0) ∨
   (MAX_LOG_SIZE ≤ rs.length ∧ ∃ post pre,
      s.logs = post ++ pre ∧
      s.head = post.length ∧
      post.length < MAX_LOG_SIZE ∧
      post.length + pre.length = MAX_LOG_SIZE ∧
      pre ++ post = rs.drop (rs.length - MAX_LOG_SIZE)))

/-- Two distinct request-log records used as concrete buffer entries. -/
def logA : RequestLog := ⟨0, "GET", "/a", 200, 1, "c1", "9.9.9.9", none, false⟩

def logB : RequestLog := ⟨1, "GET", "/b", 200, 1, "c1", "9.9.9.9", none, false⟩

/-- C1: a tier config that names the `tokenBucket` algorithm but lacks
`maxRequests` is NOT treated as unlimited: with a fresh service state (so
the global window is far from exhausted — its own check admits), the
`undefined` forwarded by `tierConfig.maxRequests!` turns the bucket
arithmetic into `NaN`, every comparison against `NaN` is false, and
`checkLimit` returns `allowed = false`.  The request is rejected
(fail-closed), not admitted. -/
theorem checkLimit_malformed_tokenBucket_rejects :
    (FixedWindowCounter.tryConsume 0 ServiceState.init.globalWindow "__global__"
        (jn brokenTierCfg.globalMaxRequests) (jn brokenTierCfg.globalWindowMs)).1.allowed = true ∧
    (checkLimit brokenTierCfg 0 ServiceState.init "9.9.9.9" "broken").1.allowed = false ∧
    (checkLimit brokenTierCfg 0 ServiceState.init "9.9.9.9" "broken").1 ≠
      ⟨true, jn (-1), jn 0, jn (-1)⟩ := by
  refine ⟨?_, ?_, ?_⟩ <;>
    norm_num [checkLimit, resolveTier, brokenTierCfg, TokenBucket.tryConsume, TokenBucket.refill,
      FixedWindowCounter.tryConsume, jorDefault, jmin, jadd, jmul, jsub, jge, jle, jlt, jn,
      jfloor, jceil, jdiv, SMap.empty, SMap.set, ServiceState.init]

/-- C2 counterexample: a clock reading of 1000 against a stored
`lastRefill` of 2000 (wall clock jumped backward) yields `elapsed = -1 s`,
which is not clamped: the refill expression takes the stored 5 tokens down
to 4, and after the consume the stored bucket holds 3 tokens — below the
4 that a clamped refill would leave. -/
theorem tokenBucket_backward_clock_decreases_tokens :
    TokenBucket.refill (jn 5) (jn 5) ((1000 - 2000 : ℚ) / 1000) (jn 1) = jn 4 ∧
    ¬ (5 : ℚ) ≤ 4 ∧
    ((TokenBucket.tryConsume 1000 (SMap.empty.set "10.0.0.1" ⟨jn 5, 2000⟩) "10.0.0.1"
        (jn 5) (jn 1)).2 "10.0.0.1") = some ⟨jn 3, 1000⟩ := by
  refine ⟨?_, by norm_num, ?_⟩ <;>
    norm_num [TokenBucket.tryConsume, TokenBucket.refill, jmin, jadd, jmul, jsub, jge, jle, jn,
      jfloor, SMap.empty, SMap.set]

/-- C2 amended: for a stored token count `q` not above the bucket capacity
`m`, a nonnegative refill rate and a clock reading `now` at or after the
stored `lastRefill`, the elapsed value is nonnegative and the refill step
never decreases the stored token count; the clamp-to-zero behaviour only
holds under a non-backward clock, because the code computes
`(now - lastRefill) / 1000` without clamping. -/
theorem tokenBucket_refill_monotone (m q l r now : ℚ) (hq : q ≤ m) (hr : 0 ≤ r)
    (hl : l ≤ now) :
    0 ≤ (now - l) / 1000 ∧
    ∃ q', TokenBucket.refill (jn m) (jn q) ((now - l) / 1000) (jn r) = jn q' ∧ q ≤ q' := by
  have helapsed : 0 ≤ (now - l) / 1000 := div_nonneg (by linarith) (by norm_num)
  refine ⟨helapsed, min m (q + (now - l) / 1000 * r), ?_, ?_⟩
  · simp [TokenBucket.refill, jmin, jadd, jmul, jn]
  · exact le_min hq (le_add_of_nonneg_right (mul_nonneg helapsed hr))

/-- Witness for the amended theorem of C2 at `m = 5`, `q = 5`, `lastRefill = 0`,
`refillRate = 1`, `now = 1000`. -/
theorem tokenBucket_refill_monotone_witness :
    0 ≤ ((1000 : ℚ) - 0) / 1000 ∧
    ∃ q', TokenBucket.refill (jn 5) (jn 5) (((1000 : ℚ) - 0) / 1000) (jn 1) = jn q' ∧
      (5 : ℚ) ≤ q' :=
  tokenBucket_refill_monotone 5 5 0 1 1000 (by norm_num) (by norm_num) (by norm_num)

/-- C3: the record the request logger appends on response completion does
not carry every `RequestLog` schema field: the schema requires
`authenticated`, but the object literal built in `createRequestLogger`
omits it (all its other keys are schema fields). -/
theorem requestLogger_record_missing_authenticated :
    "authenticated" ∈ requestLogSchemaFields ∧
    "authenticated" ∉ loggerEmittedFields ∧
    ∀ f ∈ loggerEmittedFields, f ∈ requestLogSchemaFields := by
  decide

/-- C7: the rate-limiter middleware sets the three `X-RateLimit-*` headers
exactly when `checkLimit` reported `limit > 0` — `Limit` to the limit,
`Remaining` to `max(0, remaining)`, `Reset` to `⌈resetMs / 1000⌉` — and
sets none of them otherwise; it answers 429 with
`retryAfter = ⌈resetMs / 1000⌉` when `allowed` is false and passes the
request on when `allowed` is true. -/
theorem rateLimiter_headers_and_response (r : CheckResult) :
    (∀ l rem m, r.limit = jn l → r.remaining = jn rem → r.resetMs = jn m → 0 < l →
      (rateLimiterRespond r).1 = some ⟨jn l, jn (max 0 rem), jn ((⌈m / 1000⌉ : ℤ) : ℚ)⟩) ∧
    ((∀ l, r.limit = jn l → l ≤ 0) → (rateLimiterRespond r).1 = none) ∧
    (r.allowed = false →
      (rateLimiterRespond r).2 = LimiterResponse.tooManyRequests (jceil (jdiv r.resetMs (jn 1000)))) ∧
    (r.allowed = true → (rateLimiterRespond r).2 = LimiterResponse.next) := by
  refine ⟨?_, ?_, ?_, ?_⟩
  · intro l rem m hl hrem hm hpos
    simp only [rateLimiterRespond, hl, hrem, hm, jgt, jn, jmax, jceil, jdiv]
    simp [hpos]
    split <;> rfl
  · intro h
    rcases hr : r.limit with _ | l
    · simp only [rateLimiterRespond, hr, jgt, jn]
      split <;> rfl
    · have := h l hr
      simp only [rateLimiterRespond, hr, jgt, jn, decide_eq_true_eq, if_neg (not_lt.mpr this),
        if_false]
      split <;> rfl
  · intro h; simp [rateLimiterRespond, h]
  · intro h; simp [rateLimiterRespond, h]

/-- Witness for C7 at the concrete result
`{allowed := false, remaining := 3, resetMs := 2500, limit := 5}`. -/
theorem rateLimiter_headers_and_response_witness :
    (rateLimiterRespond ⟨false, jn 3, jn 2500, jn 5⟩).1 =
      some ⟨jn 5, jn (max 0 3), jn ((⌈(2500 : ℚ) / 1000⌉ : ℤ) : ℚ)⟩ ∧
    (rateLimiterRespond ⟨false, jn 3, jn 2500, jn 5⟩).2 =
      LimiterResponse.tooManyRequests (jceil (jdiv (jn 2500) (jn 1000))) :=
  ⟨(rateLimiter_headers_and_response ⟨false, jn 3, jn 2500, jn 5⟩).1 5 3 2500 rfl rfl rfl
      (by norm_num),
    (rateLimiter_headers_and_response ⟨false, jn 3, jn 2500, jn 5⟩).2.2.1 rfl⟩

/-- C9: when the global fixed-window check inside `checkLimit` rejects,
the call returns without touching any per-tier algorithm state: the
token-bucket, sliding-window and per-tier fixed-window maps are unchanged,
only the global window map and the `rateLimitHits` counter are mutated,
and the call reports `allowed = false`. -/
theorem checkLimit_global_reject_frame (cfg : RateLimitConfig) (now : ℚ) (s : ServiceState)
    (ip tier : String)
    (h : (FixedWindowCounter.tryConsume now s.globalWindow "__global__"
        (jn cfg.globalMaxRequests) (jn cfg.globalWindowMs)).1.allowed = false) :
    (checkLimit cfg now s ip tier).2.tokenBucket = s.tokenBucket ∧
    (checkLimit cfg now s ip tier).2.slidingWindow = s.slidingWindow ∧
    (checkLimit cfg now s ip tier).2.fixedWindow = s.fixedWindow ∧
    (checkLimit cfg now s ip tier).2.globalWindow =
      (FixedWindowCounter.tryConsume now s.globalWindow "__global__"
        (jn cfg.globalMaxRequests) (jn cfg.globalWindowMs)).2 ∧
    (checkLimit cfg now s ip tier).2.rateLimitHits = s.rateLimitHits + 1 ∧
    (checkLimit cfg now s ip tier).1.allowed = false := by
  simp [checkLimit, h]

/-- Witness for C9: with a zero global ceiling the first call from a fresh
state is globally rejected and leaves every per-tier map untouched. -/
theorem checkLimit_global_reject_frame_witness :
    (checkLimit zeroGlobalCfg 0 ServiceState.init "a" "free").2.tokenBucket =
      ServiceState.init.tokenBucket ∧
    (checkLimit zeroGlobalCfg 0 ServiceState.init "a" "free").2.slidingWindow =
      ServiceState.init.slidingWindow ∧
    (checkLimit zeroGlobalCfg 0 ServiceState.init "a" "free").2.fixedWindow =
      ServiceState.init.fixedWindow ∧
    (checkLimit zeroGlobalCfg 0 ServiceState.init "a" "free").2.globalWindow =
      (FixedWindowCounter.tryConsume 0 ServiceState.init.globalWindow "__global__"
        (jn zeroGlobalCfg.globalMaxRequests) (jn zeroGlobalCfg.globalWindowMs)).2 ∧
    (checkLimit zeroGlobalCfg 0 ServiceState.init "a" "free").2.rateLimitHits =
      ServiceState.init.rateLimitHits + 1 ∧
    (checkLimit zeroGlobalCfg 0 ServiceState.init "a" "free").1.allowed = false :=
  checkLimit_global_reject_frame zeroGlobalCfg 0 ServiceState.init "a" "free"
    (by norm_num [FixedWindowCounter.tryConsume, zeroGlobalCfg, ServiceState.init, SMap.empty,
      jge, jlt, jsub, jn])

/-- Splitting a separator-free string yields the single part. -/
theorem splitOnSep_of_not_mem (sep : Char) (l : List Char) (h : sep ∉ l) :
    splitOnSep sep l = [l] := by
  induction l with
  | nil => rfl
  | cons c rest ih =>
    have hc : c ≠ sep := fun hcs => h (hcs ▸ List.mem_cons_self c rest)
    have hrest : sep ∉ rest := fun hm => h (List.mem_cons_of_mem c hm)
    simp [splitOnSep, hc, ih hrest]

/-- Splitting at the first separator occurrence peels off the prefix. -/
theorem splitOnSep_append (sep : Char) (a b : List Char) (ha : sep ∉ a) :
    splitOnSep sep (a ++ sep :: b) = a :: splitOnSep sep b := by
  induction a with
  | nil => simp [splitOnSep]
  | cons c rest ih =>
    have hc : c ≠ sep := fun hcs => ha (hcs ▸ List.mem_cons_self c rest)
    have hrest : sep ∉ rest := fun hm => ha (List.mem_cons_of_mem c hm)
    have hr := ih hrest
    simp only [List.cons_append, splitOnSep, if_neg hc]
    rw [show rest.append (sep :: b) = rest ++ sep :: b from rfl, hr]

/-- A canonical UUID contains no underscore and is nonempty. -/
theorem isCanonicalUuid_no_underscore {s : List Char} (h : isCanonicalUuid s = true) :
    '_' ∉ s ∧ s ≠ [] := by
  have h' := h
  simp only [isCanonicalUuid, Bool.and_eq_true, List.all_eq_true, decide_eq_true_eq] at h'
  obtain ⟨⟨hlen, hall⟩, -⟩ := h'
  constructor
  · intro hmem
    have := hall '_' hmem
    simp [isHexLower] at this
  · intro hnil
    rw [hnil] at hlen
    simp at hlen

/-- A 16-hex code contains no underscore and is nonempty. -/
theorem isHexCode16_no_underscore {s : List Char} (h : isHexCode16 s = true) :
    '_' ∉ s ∧ s ≠ [] := by
  simp only [isHexCode16, Bool.and_eq_true, List.all_eq_true, decide_eq_true_eq] at h
  obtain ⟨hlen, hall⟩ := h
  constructor
  · intro hmem
    have := hall '_' hmem
    simp [isHexLower] at this
  · intro hnil
    rw [hnil] at hlen
    simp at hlen

/-- C8: parsing inverts formatting on all valid TOTP keys — for every
`browserId` in canonical lowercase UUIDv4 form and every 16-hex-character
code, `parseKey (formatKey browserId code) = some (browserId, code)`. -/
theorem parseKey_formatKey_roundtrip (browserId code : List Char)
    (hid : isCanonicalUuid browserId = true) (hcode : isHexCode16 code = true) :
    parseKey (formatKey browserId code) = some (browserId, code) := by
  obtain ⟨hidq, hidne⟩ := isCanonicalUuid_no_underscore hid
  obtain ⟨hcq, hcne⟩ := isHexCode16_no_underscore hcode
  have hdrop : (formatKey browserId code).drop 5 = browserId ++ '_' :: code := rfl
  have hpre : "totp_".toList.isPrefixOf (formatKey browserId code) = true := by
    rw [ List.isPrefixOf_iff_prefix]
    exact ⟨browserId ++ '_' :: code, rfl⟩
  have hsplit : splitOnSep '_' (browserId ++ '_' :: code) = [browserId, code] := by
    rw [splitOnSep_append '_' browserId code hidq, splitOnSep_of_not_mem '_' code hcq]
  simp only [parseKey, hpre, if_true, hdrop, hsplit]
  simp [hidne, hcne, joinSep]

/-- Witness for C8 at the UUID `550e8400-e29b-41d4-a716-446655440000` and
the code `0123456789abcdef`. -/
theorem parseKey_formatKey_roundtrip_witness :
    parseKey (formatKey "550e8400-e29b-41d4-a716-446655440000".toList
        "0123456789abcdef".toList) =
      some ("550e8400-e29b-41d4-a716-446655440000".toList, "0123456789abcdef".toList) :=
  parseKey_formatKey_roundtrip _ _ (by decide) (by decide)

/-- C10: for a candidate key beginning with `totp_`, whenever a custom
TOTP validator or a device registry is configured the static credential
list is never consulted — the outcome is the same for every credential
list (even one holding an active credential whose secret equals the key), and is
either a 401 rejection or a `proceed` with a TOTP-derived client id and
tier `free`; only when neither collaborator is configured does the key
fall through to the static lookup. -/
theorem apiKeyAuth_totp_bypasses_static
    (deviceRegistry : Option (List Char → Option DeviceLookupEntry))
    (customTotpValidator : Option (List Char → Option String))
    (validTOTP : List Char → List Char → List Char → Bool)
    (reqIp : Option String) (key : List Char)
    (hpre : "totp_".toList.isPrefixOf key = true) :
    ((customTotpValidator.isSome ∨ deviceRegistry.isSome) →
      (∀ keys1 keys2,
        apiKeyAuth keys1 deviceRegistry customTotpValidator validTOTP reqIp (some key) =
        apiKeyAuth keys2 deviceRegistry customTotpValidator validTOTP reqIp (some key)) ∧
      (∀ keys,
        (∃ e, apiKeyAuth keys deviceRegistry customTotpValidator validTOTP reqIp (some key) =
          AuthOutcome.reject 401 e) ∨
        (∃ cid, apiKeyAuth keys deviceRegistry customTotpValidator validTOTP reqIp (some key) =
          AuthOutcome.proceed cid "free" (some key)))) ∧
    (∀ keys, apiKeyAuth keys none none validTOTP reqIp (some key) = staticKeyLookup keys key) := by
  constructor
  · intro hconf
    rcases customTotpValidator with _ | validator
    · rcases deviceRegistry with _ | getDevice
      · simp at hconf
      · constructor
        · intro keys1 keys2
          simp only [apiKeyAuth, hpre, if_true]
        · intro keys
          simp only [apiKeyAuth, hpre, if_true]
          rcases hp : parseKey key with _ | parsed
          · exact Or.inl ⟨"Malformed TOTP key", rfl⟩
          · rcases hd : getDevice parsed.1 with _ | device
            · exact Or.inl ⟨"Device not registered or expired", by simp [hd]⟩
            · by_cases hv : validTOTP parsed.1 device.sharedSecret parsed.2 = true
              · exact Or.inr ⟨clientIdFromString parsed.1, by simp [hd, hv]⟩
              · exact Or.inl ⟨"Invalid or expired TOTP code", by simp [hd, hv]⟩
    · constructor
      · intro keys1 keys2
        simp only [apiKeyAuth, hpre, if_true]
      · intro keys
        simp only [apiKeyAuth, hpre, if_true]
        rcases hv : validator key with _ | sessionId
        · exact Or.inl ⟨"Invalid or expired TOTP session", by simp [hv]⟩
        · exact Or.inr ⟨sessionId, by simp [hv]⟩
  · intro keys
    simp only [apiKeyAuth, hpre, if_true]

/-- Witness for C10: with a configured custom validator and a credential
list containing an active static credential whose secret is the very same
`totp_`-prefixed key, the outcome ignores the credential list. -/
theorem apiKeyAuth_totp_bypasses_static_witness :
    (apiKeyAuth [⟨"key_001", "totp_x_y".toList, "pro", true⟩] none
        (some fun _ => some "session1") (fun _ _ _ => true) (some "1.2.3.4")
        (some "totp_x_y".toList) =
      apiKeyAuth [] none (some fun _ => some "session1") (fun _ _ _ => true) (some "1.2.3.4")
        (some "totp_x_y".toList)) ∧
    (apiKeyAuth [] none none (fun _ _ _ => true) (some "1.2.3.4") (some "totp_x_y".toList) =
      staticKeyLookup [] "totp_x_y".toList) :=
  ⟨((apiKeyAuth_totp_bypasses_static none (some fun _ => some "session1") (fun _ _ _ => true)
        (some "1.2.3.4") "totp_x_y".toList (by decide)).1 (Or.inl rfl)).1
      [⟨"key_001", "totp_x_y".toList, "pro", true⟩] [],
    (apiKeyAuth_totp_bypasses_static none none (fun _ _ _ => true)
        (some "1.2.3.4") "totp_x_y".toList (by decide)).2 []⟩

/-- One admitted token-bucket step: if the effective bucket (the stored one,
or the fresh `{tokens: maxTokens, lastRefill: now}` for a first-seen
client) holds at least one token, at most the capacity, and its
`lastRefill` is not in the future, the call is admitted and the stored
bucket afterwards holds between `q - 1` and `C - 1` tokens with
`lastRefill = now`. -/
theorem tryConsume_admits (C r t q l : ℚ) (m : SMap BucketState) (ip : String)
    (hb : (match m ip with | some b => b | none => (⟨jn C, t⟩ : BucketState)) = ⟨jn q, l⟩)
    (hr : 0 ≤ r) (h1 : 1 ≤ q) (hqC : q ≤ C) (hl : l ≤ t) :
    (TokenBucket.tryConsume t m ip (jn C) (jn r)).1.allowed = true ∧
    ∃ q', (TokenBucket.tryConsume t m ip (jn C) (jn r)).2 ip = some ⟨jn q', t⟩ ∧
      q - 1 ≤ q' ∧ q' ≤ C - 1 := by
  have he : 0 ≤ (t - l) / 1000 * r :=
    mul_nonneg (div_nonneg (by linarith) (by norm_num)) hr
  have hmin1 : 1 ≤ min C (q + (t - l) / 1000 * r) := le_min (by linarith) (by linarith)
  have hqmin : q ≤ min C (q + (t - l) / 1000 * r) := le_min hqC (by linarith)
  have hminC : min C (q + (t - l) / 1000 * r) ≤ C := min_le_left _ _
  unfold TokenBucket.tryConsume
  rw [hb]
  simp only [TokenBucket.refill, jmin, jadd, jmul, jn, jge, jsub, jfloor, decide_eq_true_eq]
  rw [if_pos hmin1]
  refine ⟨rfl, min C (q + (t - l) / 1000 * r) - 1, ?_, by linarith, by linarith⟩
  simp [SMap.set]

/-- Running the bucket from a stored state with at least as many tokens as
remaining calls (and a valid refill clock) admits every call. -/
theorem runBucket_all_admitted (C r : ℚ) (hr : 0 ≤ r) :
    ∀ (ts : List ℚ) (m : SMap BucketState) (q l : ℚ) (ip : String),
      m ip = some ⟨jn q, l⟩ → (ts.length : ℚ) ≤ q → q ≤ C →
      ts.Pairwise (· ≤ ·) → (∀ t ∈ ts, l ≤ t) →
      ((runBucket ip (jn C) (jn r) ts m).2).all id = true := by
  intro ts
  induction ts with
  | nil => intro m q l ip _ _ _ _ _; rfl
  | cons t ts' ih =>
    intro m q l ip hm hlen hqC hpw hfut
    have hlen' : ((t :: ts').length : ℚ) = (ts'.length : ℚ) + 1 := by
      simp [List.length_cons]
    have h1 : 1 ≤ q := by
      rw [hlen'] at hlen
      have : (0 : ℚ) ≤ (ts'.length : ℚ) := Nat.cast_nonneg _
      linarith
    have hstep := tryConsume_admits C r t q l m ip (by rw [hm]) hr h1 hqC
      (hfut t (List.mem_cons_self t ts'))
    obtain ⟨hallow, q', hq'm, hq'lo, hq'hi⟩ := hstep
    rw [List.pairwise_cons] at hpw
    have hrest := ih ((TokenBucket.tryConsume t m ip (jn C) (jn r)).2) q' t ip hq'm
      (by rw [hlen'] at hlen; linarith)
      (by linarith)
      hpw.2
      (fun u hu => hpw.1 u hu)
    simp [runBucket, hallow, hrest]

/-- C5: under the drain config (`tokenBucket`, `maxRequests 5`,
`refillRate 1`) a first-seen client making six `checkLimit` calls at one
clock reading is admitted on the first five with `remaining` 4, 3, 2, 1, 0
and rejected on the sixth with `resetMs = 1000`; and in general, for any
capacity `C`, nonnegative refill rate, non-decreasing clock readings and a
first-seen client, the token bucket admits `C` consecutive requests. -/
theorem tokenBucket_drain_scenario :
    ((runChecks drainCfg "10.0.0.1" "free" [0, 0, 0, 0, 0, 0] ServiceState.init).2 =
      [⟨true, jn 4, jn 0, jn 5⟩, ⟨true, jn 3, jn 0, jn 5⟩, ⟨true, jn 2, jn 0, jn 5⟩,
        ⟨true, jn 1, jn 0, jn 5⟩, ⟨true, jn 0, jn 1000, jn 5⟩,
        ⟨false, jn 0, jn 1000, jn 5⟩]) ∧
    (∀ (C : ℕ) (r : ℚ) (ts : List ℚ) (m : SMap BucketState) (ip : String),
      0 ≤ r → m ip = none → (ts.length : ℚ) ≤ C → ts.Pairwise (· ≤ ·) →
      ((runBucket ip (jn C) (jn r) ts m).2).all id = true) := by
  constructor
  · norm_num [runChecks, checkLimit, resolveTier, drainCfg, TokenBucket.tryConsume,
      TokenBucket.refill, FixedWindowCounter.tryConsume, jorDefault, jmin, jadd, jmul, jsub,
      jge, jle, jlt, jn, jfloor, jceil, jdiv, SMap.empty, SMap.set, ServiceState.init]
  · intro C r ts m ip hr hm hlen hpw
    cases ts with
    | nil => rfl
    | cons t ts' =>
      have hlen' : ((t :: ts').length : ℚ) = (ts'.length : ℚ) + 1 := by
        simp [List.length_cons]
      have h1 : 1 ≤ (C : ℚ) := by
        rw [hlen'] at hlen
        have : (0 : ℚ) ≤ (ts'.length : ℚ) := Nat.cast_nonneg _
        linarith
      have hstep := tryConsume_admits (C : ℚ) r t (C : ℚ) t m ip (by rw [hm]) hr h1 le_rfl le_rfl
      obtain ⟨hallow, q', hq'm, hq'lo, hq'hi⟩ := hstep
      rw [List.pairwise_cons] at hpw
      have hrest := runBucket_all_admitted (C : ℚ) r hr ts'
        ((TokenBucket.tryConsume t m ip (jn (C : ℚ)) (jn r)).2) q' t ip hq'm
        (by rw [hlen'] at hlen; linarith)
        (by linarith)
        hpw.2
        (fun u hu => hpw.1 u hu)
      simp [runBucket, hallow, hrest]

/-- Witness for the general conjunct of C5 at capacity 2, refill rate 1, two
calls at clock 0 from a first-seen client. -/
theorem tokenBucket_drain_scenario_witness :
    ((runBucket "w" (jn ((2 : ℕ) : ℚ)) (jn 1) [0, 0] SMap.empty).2).all id = true :=
  tokenBucket_drain_scenario.2 2 1 [0, 0] SMap.empty "w" (by norm_num) rfl (by norm_num)
    (by simp)

theorem admittedTimes_nil (cfg : RateLimitConfig) (ip tier : String) (s : ServiceState) :
    admittedTimes cfg ip tier [] s = [] := rfl

theorem admittedTimes_cons (cfg : RateLimitConfig) (ip tier : String) (t : ℚ) (ts : List ℚ)
    (s : ServiceState) :
    admittedTimes cfg ip tier (t :: ts) s =
      (if (checkLimit cfg t s ip tier).1.allowed then [t] else []) ++
        admittedTimes cfg ip tier ts (checkLimit cfg t s ip tier).2 := by
  simp only [admittedTimes, runChecks, List.zip_cons_cons, List.filter_cons]
  cases (checkLimit cfg t s ip tier).1.allowed <;> simp

/-- Reading `storedSW` goes through the sliding-window map of the service. -/
theorem storedSW_eq (s : ServiceState) (ip : String) :
    storedSW s ip = storedTimestamps s.slidingWindow ip := rfl

/-- One `SlidingWindowLog.tryConsume` call, described through the stored
timestamp list `L` and its in-window filtering `F`: admitted with new list
`F ++ [now]` when `F` is strictly below `maxRequests`, rejected with new
list `F` otherwise. -/
theorem slidingConsume_step (now W : ℚ) (M : ℕ) (w : SMap SlidingWindowState) (ip : String) :
    (((storedTimestamps w ip).filter (fun u : ℚ => decide (now - u < W))).length < M →
      (SlidingWindowLog.tryConsume now w ip (jn (M : ℚ)) (jn W)).1.allowed = true ∧
      storedTimestamps (SlidingWindowLog.tryConsume now w ip (jn (M : ℚ)) (jn W)).2 ip =
        (storedTimestamps w ip).filter (fun u : ℚ => decide (now - u < W)) ++ [now]) ∧
    (¬ ((storedTimestamps w ip).filter (fun u : ℚ => decide (now - u < W))).length < M →
      (SlidingWindowLog.tryConsume now w ip (jn (M : ℚ)) (jn W)).1.allowed = false ∧
      storedTimestamps (SlidingWindowLog.tryConsume now w ip (jn (M : ℚ)) (jn W)).2 ip =
        (storedTimestamps w ip).filter (fun u : ℚ => decide (now - u < W))) := by
  have hpred : (fun t : ℚ => jlt (jn (now - t)) (jn W)) =
      (fun u : ℚ => decide (now - u < W)) := by
    funext u; simp [jlt, jn]
  rcases hsw : w ip with _ | st
  all_goals
    constructor
  · intro hlen
    have hcond : jlt (jn ((0 : ℕ) : ℚ)) (jn (M : ℚ)) = true := by
      simp only [jlt, jn, decide_eq_true_eq]
      exact_mod_cast (by simpa [storedTimestamps, hsw] using hlen)
    simp only [storedTimestamps, hsw] at hlen ⊢
    simp only [SlidingWindowLog.tryConsume, hsw, hpred, List.filter_nil, List.length_nil]
    norm_num at hcond ⊢
    simp [hcond, SMap.set, storedTimestamps]
  · intro hlen
    have hM : M = 0 := by
      simp only [storedTimestamps, hsw, List.filter_nil, List.length_nil] at hlen
      omega
    subst hM
    simp only [storedTimestamps, hsw]
    simp only [SlidingWindowLog.tryConsume, hsw, hpred, List.filter_nil, List.length_nil]
    norm_num [jlt, jn]
    simp [SMap.set, storedTimestamps]
  · intro hlen
    simp only [storedTimestamps, hsw] at hlen ⊢
    have hcond : jlt (jn (((st.timestamps.filter
          (fun u : ℚ => decide (now - u < W))).length : ℕ) : ℚ)) (jn (M : ℚ)) = true := by
      simp only [jlt, jn, decide_eq_true_eq]
      exact_mod_cast hlen
    simp only [SlidingWindowLog.tryConsume, hsw, hpred]
    rw [if_pos hcond]
    simp [SMap.set, storedTimestamps]
  · intro hlen
    simp only [storedTimestamps, hsw] at hlen ⊢
    have hcond : ¬ (jlt (jn (((st.timestamps.filter
          (fun u : ℚ => decide (now - u < W))).length : ℕ) : ℚ)) (jn (M : ℚ)) = true) := by
      simp only [jlt, jn, decide_eq_true_eq]
      intro hc
      exact hlen (by exact_mod_cast hc)
    simp only [SlidingWindowLog.tryConsume, hsw, hpred]
    rw [if_neg hcond]
    simp [SMap.set, storedTimestamps]

/-- One `checkLimit` call against a sliding-window tier, described through
the stored timestamp list: either the call is admitted, the filtered list
was strictly below `maxRequests`, and the new stored list is the filtered
list with `now` appended; or the call is rejected and the stored list is
the filtered list (tier rejection) or unchanged (global rejection). -/
theorem checkLimit_sliding_cases (cfg : RateLimitConfig) (ip tier : String)
    (M : ℕ) (W : ℚ) (rr : JNum)
    (hres : resolveTier cfg tier =
      some ⟨Algorithm.slidingWindow, jn (M : ℚ), jn W, rr⟩)
    (now : ℚ) (s : ServiceState) :
    ((checkLimit cfg now s ip tier).1.allowed = true ∧
      ((storedSW s ip).filter (fun u => decide (now - u < W))).length < M ∧
      storedSW (checkLimit cfg now s ip tier).2 ip =
        (storedSW s ip).filter (fun u => decide (now - u < W)) ++ [now]) ∨
    ((checkLimit cfg now s ip tier).1.allowed = false ∧
      (storedSW (checkLimit cfg now s ip tier).2 ip =
        (storedSW s ip).filter (fun u => decide (now - u < W)) ∨
       storedSW (checkLimit cfg now s ip tier).2 ip = storedSW s ip)) := by
  obtain ⟨hpos, hneg⟩ := slidingConsume_step now W M s.slidingWindow ip
  unfold checkLimit
  by_cases hg : (FixedWindowCounter.tryConsume now s.globalWindow "__global__"
      (jn cfg.globalMaxRequests) (jn cfg.globalWindowMs)).1.allowed = false
  · rw [if_pos hg]
    exact Or.inr ⟨rfl, Or.inr (by simp [storedSW, storedTimestamps])⟩
  · rw [if_neg hg, hres]
    dsimp only
    by_cases hlen :
        ((storedTimestamps s.slidingWindow ip).filter
          (fun u : ℚ => decide (now - u < W))).length < M
    · obtain ⟨hallow, hnew⟩ := hpos hlen
      exact Or.inl ⟨hallow, by simpa [storedSW_eq] using hlen, by simpa [storedSW_eq] using hnew⟩
    · obtain ⟨hallow, hnew⟩ := hneg hlen
      exact Or.inr ⟨hallow, Or.inl (by simpa [storedSW_eq] using hnew)⟩

/-- Core sliding-window invariant: starting from a state whose stored list
is the in-window filtering of the already-admitted times `A` (all at or
before `n0`), any further non-decreasing calls keep the number of admitted
times in every half-open window `(t - W, t]` at or below `maxRequests`. -/
theorem sliding_run_bound (cfg : RateLimitConfig) (ip tier : String) (M : ℕ) (W : ℚ)
    (rr : JNum)
    (hres : resolveTier cfg tier = some ⟨Algorithm.slidingWindow, jn (M : ℚ), jn W, rr⟩)
    (hW : 0 < W) :
    ∀ (ts : List ℚ) (s : ServiceState) (A : List ℚ) (n0 : ℚ),
      storedSW s ip = A.filter (fun u => decide (n0 - u < W)) →
      (∀ u ∈ A, u ≤ n0) →
      (∀ t : ℚ, ((A.filter (fun u => decide (t - W < u ∧ u ≤ t))).length ≤ M)) →
      (n0 :: ts).Pairwise (· ≤ ·) →
      ∀ t : ℚ, (((A ++ admittedTimes cfg ip tier ts s).filter
        (fun u => decide (t - W < u ∧ u ≤ t))).length ≤ M) := by
  intro ts
  induction ts with
  | nil =>
    intro s A n0 _ _ hbound _ t
    simpa [admittedTimes_nil] using hbound t
  | cons n ts' ih =>
    intro s A n0 hstate hpast hbound hpw t
    rw [List.pairwise_cons] at hpw
    have hn0n : n0 ≤ n := hpw.1 n (List.mem_cons_self _ _)
    have hpwtail : (n :: ts').Pairwise (· ≤ ·) := hpw.2
    have hn0ts' : ∀ u ∈ ts', n0 ≤ u := fun u hu => hpw.1 u (List.mem_cons_of_mem _ hu)
    have hcomp : (A.filter (fun u => decide (n0 - u < W))).filter
        (fun u => decide (n - u < W)) = A.filter (fun u => decide (n - u < W)) := by
      rw [List.filter_filter]
      refine List.filter_congr ?_
      intro x _
      by_cases hx : n - x < W
      · simp only [decide_eq_true_eq] at *
        simp [hx, show n0 - x < W by linarith]
      · simp [hx]
    have hF : (storedSW s ip).filter (fun u => decide (n - u < W)) =
        A.filter (fun u => decide (n - u < W)) := by rw [hstate, hcomp]
    rcases checkLimit_sliding_cases cfg ip tier M W rr hres n s with
      ⟨hall, hflen, hnew⟩ | ⟨hall, hnew | hnew⟩
    · have hifeq : (if (checkLimit cfg n s ip tier).1.allowed then [n] else ([] : List ℚ)) =
          [n] := by simp [hall]
      rw [admittedTimes_cons, hifeq,
        show A ++ ([n] ++ admittedTimes cfg ip tier ts' (checkLimit cfg n s ip tier).2) =
          (A ++ [n]) ++ admittedTimes cfg ip tier ts' (checkLimit cfg n s ip tier).2 from
          (List.append_assoc _ _ _).symm]
      have hflen' : (A.filter (fun u => decide (n - u < W))).length < M := by
        rwa [hF] at hflen
      have hfn : (([n] : List ℚ).filter (fun u => decide (n - u < W))) = [n] := by
        simp [hW]
      refine ih (checkLimit cfg n s ip tier).2 (A ++ [n]) n ?_ ?_ ?_ hpwtail t
      · rw [hnew, hF, List.filter_append, hfn]
      · intro u hu
        rcases List.mem_append.mp hu with hu | hu
        · exact le_trans (hpast u hu) hn0n
        · simp only [List.mem_singleton] at hu
          exact le_of_eq hu
      · intro t'
        rw [List.filter_append, List.length_append]
        by_cases hnt : n ≤ t'
        · have hsub : List.Sublist (A.filter (fun u => decide (t' - W < u ∧ u ≤ t')))
              (A.filter (fun u => decide (n - u < W))) := by
            refine List.monotone_filter_right A ?_
            intro u hu
            simp only [decide_eq_true_eq] at hu ⊢
            linarith [hu.1, hu.2]
          have h1 : (A.filter (fun u => decide (t' - W < u ∧ u ≤ t'))).length ≤
              (A.filter (fun u => decide (n - u < W))).length := hsub.length_le
          have h2 : (([n] : List ℚ).filter (fun u => decide (t' - W < u ∧ u ≤ t'))).length ≤ 1 :=
            le_trans (List.length_filter_le _ _) (by simp)
          omega
        · have h0 : (([n] : List ℚ).filter (fun u => decide (t' - W < u ∧ u ≤ t'))).length = 0 := by
            simp [hnt]
          rw [h0]
          simpa using hbound t'
    · have hifeq : (if (checkLimit cfg n s ip tier).1.allowed then [n] else ([] : List ℚ)) =
          [] := by simp [hall]
      rw [admittedTimes_cons, hifeq, List.nil_append]
      exact ih _ A n (by rw [hnew, hF]) (fun u hu => le_trans (hpast u hu) hn0n) hbound
        hpwtail t
    · have hifeq : (if (checkLimit cfg n s ip tier).1.allowed then [n] else ([] : List ℚ)) =
          [] := by simp [hall]
      rw [admittedTimes_cons, hifeq, List.nil_append]
      have hpw0 : (n0 :: ts').Pairwise (· ≤ ·) :=
        List.pairwise_cons.mpr ⟨hn0ts', (List.pairwise_cons.mp hpwtail).2⟩
      exact ih _ A n0 (by rw [hnew, hstate]) hpast hbound hpw0 t

/-- C4 amended: for every client under a sliding-window tier with
parameters `maxRequests = M` and `windowMs = W > 0`, and every sequence of
`checkLimit` calls with non-decreasing clock readings starting from a
fresh service, at every time `t` the number of admitted requests whose
timestamps lie in the half-open window `(t - W, t]` never exceeds `M`.
(The closed window `[t - W, t]` of the original claim fails: the stored
filter `now - u < W` evicts a timestamp at exactly distance `W`.) -/
theorem slidingWindow_halfopen_admission_bound (cfg : RateLimitConfig) (ip tier : String)
    (M : ℕ) (W : ℚ) (rr : JNum) (ts : List ℚ) (t : ℚ)
    (hres : resolveTier cfg tier = some ⟨Algorithm.slidingWindow, jn (M : ℚ), jn W, rr⟩)
    (hW : 0 < W)
    (hpw : ts.Pairwise (· ≤ ·)) :
    ((admittedTimes cfg ip tier ts ServiceState.init).filter
      (fun u => decide (t - W < u ∧ u ≤ t))).length ≤ M := by
  cases ts with
  | nil => simp [admittedTimes_nil]
  | cons h ts' =>
    have hpw' : (h :: h :: ts').Pairwise (· ≤ ·) := by
      rw [List.pairwise_cons] at hpw ⊢
      refine ⟨?_, List.pairwise_cons.mpr hpw⟩
      intro u hu
      rcases List.mem_cons.mp hu with hu | hu
      · exact le_of_eq hu.symm
      · exact hpw.1 u hu
    have := sliding_run_bound cfg ip tier M W rr hres hW (h :: ts') ServiceState.init [] h
      (by simp [storedSW, storedTimestamps, ServiceState.init, SMap.empty])
      (by simp)
      (by simp)
      hpw' t
    simpa using this

/-- C4 counterexample: under `maxRequests = 2`, `windowMs = 1000`, calls at
0, 1 and 1000 are all admitted (the strict filter `now - u < 1000` evicts
the timestamp 0 at clock 1000), so the closed window `[1000 - 1000, 1000]`
holds 3 admitted timestamps — more than `maxRequests`. -/
theorem slidingWindow_closed_window_counterexample :
    admittedTimes slidingCfg "1.2.3.4" "pro" [0, 1, 1000] ServiceState.init = [0, 1, 1000] ∧
    ((admittedTimes slidingCfg "1.2.3.4" "pro" [0, 1, 1000] ServiceState.init).filter
      (fun u => decide ((1000 : ℚ) - 1000 ≤ u ∧ u ≤ 1000))).length = 3 ∧
    ¬ ((3 : ℕ) ≤ 2) := by
  have hrun : admittedTimes slidingCfg "1.2.3.4" "pro" [0, 1, 1000] ServiceState.init =
      [0, 1, 1000] := by
    norm_num [admittedTimes, runChecks, checkLimit, resolveTier, slidingCfg,
      SlidingWindowLog.tryConsume, FixedWindowCounter.tryConsume, jhead, jmin, jadd, jmul,
      jsub, jge, jle, jlt, jn, jfloor, jceil, jdiv, SMap.empty, SMap.set, ServiceState.init,
      List.zip_cons_cons, List.filter_cons]
  refine ⟨hrun, ?_, by norm_num⟩
  rw [hrun]
  norm_num [List.filter_cons]

/-- Witness for the amended theorem of C4 at the counterexample run: with
`M = 2`, `W = 1000` and calls at 0, 1, 1000, every half-open window
`(t - 1000, t]` — here `t = 1000` — holds at most 2 admitted times. -/
theorem slidingWindow_halfopen_admission_bound_witness :
    ((admittedTimes slidingCfg "1.2.3.4" "pro" [0, 1, 1000] ServiceState.init).filter
      (fun u => decide ((1000 : ℚ) - 1000 < u ∧ u ≤ 1000))).length ≤ 2 :=
  slidingWindow_halfopen_admission_bound slidingCfg "1.2.3.4" "pro" 2 1000 none
    [0, 1, 1000] 1000
    (by norm_num [resolveTier, slidingCfg, jn])
    (by norm_num)
    (by norm_num [List.pairwise_cons])

/-- Overwriting the element right after a prefix. -/
theorem set_append_cons {α : Type} (post : List α) (x r : α) (pre : List α) :
    (post ++ x :: pre).set post.length r = post ++ r :: pre := by
  induction post with
  | nil => rfl
  | cons a post ih => simp only [List.cons_append, List.length_cons, List.set_cons_succ, ih]

/-- Folding `addLog` from the left appends one call. -/
theorem applyLogs_append (rs : List RequestLog) (r : RequestLog) :
    applyLogs (rs ++ [r]) = addLog (applyLogs rs) r := by
  simp [applyLogs, List.foldl_append]

theorem bufInv_init : BufInv [] AnalyticsState.init := by
  refine ⟨by simp [AnalyticsState.init], by simp [AnalyticsState.init],
    Or.inl ⟨by norm_num [MAX_LOG_SIZE], rfl, rfl⟩⟩

/-- One `addLog` call preserves the buffer invariant. -/
theorem bufInv_step (rs : List RequestLog) (s : AnalyticsState) (r : RequestLog)
    (h : BufInv rs s) : BufInv (rs ++ [r]) (addLog s r) := by
  have hM : 0 < MAX_LOG_SIZE := by norm_num [MAX_LOG_SIZE]
  obtain ⟨hc, hl, hcase⟩ := h
  have hlen1 : (rs ++ [r]).length = rs.length + 1 := by simp
  rcases hcase with ⟨hlt, hlogs, hhead⟩ | ⟨hge, post, pre, hlogs, hhead, hplt, hsum, hdrop⟩
  · have hcnt : s.count < MAX_LOG_SIZE := by rw [hc]; omega
    have hpush : addLog s r = ⟨s.logs ++ [r], s.head, s.count + 1⟩ := by
      unfold addLog
      rw [if_pos hcnt]
    rw [hpush]
    refine ⟨by simp [hc, hlen1]; omega, by simp [hl, hlen1]; omega, ?_⟩
    by_cases h2 : rs.length + 1 < MAX_LOG_SIZE
    · exact Or.inl ⟨by omega, by simp [hlogs], by simp [hhead]⟩
    · refine Or.inr ⟨by omega, [], rs ++ [r], by simp [hlogs], by simp [hhead], hM,
        by simp [hlen1]; omega, ?_⟩
      have h0 : rs.length + 1 - MAX_LOG_SIZE = 0 := by omega
      simp [h0]
  · have hcnt : ¬ s.count < MAX_LOG_SIZE := by rw [hc]; omega
    have hover : addLog s r =
        ⟨s.logs.set s.head r, (s.head + 1) % MAX_LOG_SIZE, s.count⟩ := by
      unfold addLog
      rw [if_neg hcnt]
    rw [hover]
    cases pre with
    | nil =>
      exact absurd (by simpa using hsum) (Nat.ne_of_lt hplt)
    | cons p pre' =>
      refine ⟨by simp [hc, hlen1]; omega,
        by simp [List.length_set, hl, hlen1]; omega,
        Or.inr ⟨by rw [hlen1]; omega, ?_⟩⟩
      have hsum2 : post.length + (pre'.length + 1) = MAX_LOG_SIZE := by simpa using hsum
      have hset : s.logs.set s.head r = post ++ r :: pre' := by
        rw [hlogs, hhead, set_append_cons]
      have hkle : rs.length - MAX_LOG_SIZE + 1 ≤ rs.length := by omega
      have hk1 : (rs ++ [r]).length - MAX_LOG_SIZE = (rs.length - MAX_LOG_SIZE) + 1 := by
        rw [hlen1]; omega
      have hdropstep : (rs ++ [r]).drop ((rs.length - MAX_LOG_SIZE) + 1) =
          (pre' ++ post) ++ [r] := by
        have hdd : rs.drop ((rs.length - MAX_LOG_SIZE) + 1) =
            (rs.drop (rs.length - MAX_LOG_SIZE)).drop 1 := by
          rw [List.drop_drop]
        have h1 : rs.drop ((rs.length - MAX_LOG_SIZE) + 1) = pre' ++ post := by
          rw [hdd, ← hdrop]
          simp
        rw [List.drop_append_of_le_length hkle, h1]
      by_cases h2 : post.length + 1 < MAX_LOG_SIZE
      · refine ⟨post ++ [r], pre', by rw [hset]; simp, ?_, by simpa using h2, ?_, ?_⟩
        · simp only [hhead]
          rw [Nat.mod_eq_of_lt h2]
          simp
        · rw [List.length_append, List.length_cons, List.length_nil, Nat.zero_add,
            Nat.add_right_comm, Nat.add_assoc]
          exact hsum2
        · rw [hk1, hdropstep]
          simp
      · have hpm1 : post.length + 1 = MAX_LOG_SIZE :=
          Nat.le_antisymm (Nat.succ_le_of_lt hplt) (Nat.le_of_not_lt h2)
        have hpre0 : pre' = [] := by
          have hones : pre'.length + 1 = 1 :=
            Nat.add_left_cancel (hsum2.trans hpm1.symm)
          exact List.length_eq_zero.mp (Nat.succ_injective hones)
        subst hpre0
        refine ⟨[], post ++ [r], by rw [hset]; simp, ?_, hM, by simpa using hpm1, ?_⟩
        · simp only [hhead]
          rw [hpm1, Nat.mod_self]
          simp
        · rw [hk1, hdropstep]
          simp

/-- The buffer invariant holds after any insert history. -/
theorem applyLogs_inv (rs : List RequestLog) : BufInv rs (applyLogs rs) := by
  induction rs using List.reverseRecOn with
  | nil => exact bufInv_init
  | append_singleton rs r ih =>
    rw [applyLogs_append]
    exact bufInv_step rs (applyLogs rs) r ih

/-- The ordered read is the newest-first view of the last
`MAX_LOG_SIZE` inserts. -/
theorem getOrderedLogs_applyLogs (rs : List RequestLog) :
    getOrderedLogs (applyLogs rs) = (rs.drop (rs.length - MAX_LOG_SIZE)).reverse := by
  obtain ⟨hc, hl, hcase⟩ := applyLogs_inv rs
  rcases hcase with ⟨hlt, hlogs, hhead⟩ | ⟨hge, post, pre, hlogs, hhead, hplt, hsum, hdrop⟩
  · have hcnt : (applyLogs rs).count < MAX_LOG_SIZE := by rw [hc]; omega
    unfold getOrderedLogs
    rw [if_pos hcnt, hlogs]
    have h0 : rs.length - MAX_LOG_SIZE = 0 := by omega
    rw [h0]
    simp
  · have hcnt : ¬ (applyLogs rs).count < MAX_LOG_SIZE := by rw [hc]; omega
    unfold getOrderedLogs
    rw [if_neg hcnt, hlogs, hhead, List.drop_left, List.take_left, hdrop]

/-- C6: after `n` `addLog` calls the live count of the buffer is
`min n 10000`; the ordered read returns the last `min n 10000` records
newest-first, hence is non-increasing by timestamp whenever inserts used a
non-decreasing clock; and for `n = 10001` the snapshot's `totalRequests`
is 10000 and the first-inserted record is no longer returned by any
paginated read. -/
theorem analytics_buffer_spec (rs : List RequestLog) :
    (applyLogs rs).count = min rs.length MAX_LOG_SIZE ∧
    getOrderedLogs (applyLogs rs) = (rs.drop (rs.length - MAX_LOG_SIZE)).reverse ∧
    (rs.Pairwise (fun a b => a.timestamp ≤ b.timestamp) →
      (getOrderedLogs (applyLogs rs)).Pairwise (fun a b => b.timestamp ≤ a.timestamp)) ∧
    (rs.length = 10001 →
      analyticsTotalRequests (applyLogs rs) = 10000 ∧
      ∀ (r : RequestLog) (rest : List RequestLog), rs = r :: rest → r ∉ rest →
        ∀ limit offset, r ∉ getRecentLogs limit offset (applyLogs rs)) := by
  have h1 := (applyLogs_inv rs).1
  have h2 := getOrderedLogs_applyLogs rs
  refine ⟨h1, h2, ?_, ?_⟩
  · intro hpw
    rw [h2, List.pairwise_reverse]
    exact List.Pairwise.sublist (List.drop_sublist _ _) hpw
  · intro hlen
    constructor
    · show (applyLogs rs).count = 10000
      rw [h1, hlen]
      norm_num [MAX_LOG_SIZE]
    · intro r rest hrs hmem limit offset hin
      apply hmem
      have hordered : getOrderedLogs (applyLogs rs) = rest.reverse := by
        rw [h2]
        have hk : rs.length - MAX_LOG_SIZE = 1 := by rw [hlen]; norm_num [MAX_LOG_SIZE]
        rw [hk, hrs]
        simp
      unfold getRecentLogs at hin
      rw [hordered] at hin
      exact List.mem_reverse.mp (List.mem_of_mem_drop (List.mem_of_mem_take hin))

/-- Witness for C6 at 10001 inserts: record `logA` followed by 10000
copies of the later record `logB`. -/
theorem analytics_buffer_spec_witness :
    analyticsTotalRequests (applyLogs (logA :: List.replicate 10000 logB)) = 10000 ∧
    logA ∉ getRecentLogs 20 0 (applyLogs (logA :: List.replicate 10000 logB)) ∧
    (getOrderedLogs (applyLogs (logA :: List.replicate 10000 logB))).Pairwise
      (fun a b => b.timestamp ≤ a.timestamp) := by
  obtain ⟨h1, h2, h3, h4⟩ := analytics_buffer_spec (logA :: List.replicate 10000 logB)
  have hlen : (logA :: List.replicate 10000 logB).length = 10001 := by
    rw [List.length_cons, List.length_replicate]
  obtain ⟨h41, h42⟩ := h4 hlen
  refine ⟨h41, h42 logA (List.replicate 10000 logB) rfl ?_ 20 0, h3 ?_⟩
  · intro hmem
    have h5 := List.eq_of_mem_replicate hmem
    simp [logA, logB] at h5
  · refine List.pairwise_cons.mpr ⟨?_, ?_⟩
    · intro b hb
      rw [List.eq_of_mem_replicate hb]
      norm_num [logA, logB]
    · rw [List.pairwise_replicate]
      exact Or.inr le_rfl

end Gateway
